import Mathlib

/-!
Shallow embedding of the AsyncHTTPRequest HTTP/1.1 client engine
(files `AsyncHTTPRequest.h` / `AsyncHTTPRequest.cpp`).

Modelling conventions:
* bytes are natural numbers; `char*` data arguments become `List Nat`;
* uninitialized fragment memory (the C++ `Fragment::data` array is not
  initialized) is modelled by the fixed byte `garbageByte`, one admissible
  concretization of the indeterminate contents;
* every C++ loop is modelled by structural recursion on an explicit fuel
  argument chosen so that it never runs out for the loop's actual
  progress measure (each iteration strictly decreases the measure);
* `size_t` values are `Nat`; no arithmetic in the modelled paths can
  overflow 64 bits, and the underflow `responseContentLength - dataReceived`
  is only evaluated under the guard `dataReceived + length > responseContentLength`
  together with the machine invariant `dataReceived ≤ responseContentLength`,
  where C and `Nat` subtraction agree;
* the transport (`AsyncSSLClient`) is external: its events are inputs to the
  handlers, `space()` is a parameter, and `add` is modelled as accepting all
  offered bytes (a best-effort transport that never pushes back);
* user callbacks are modelled as always registered: the notification
  dispatcher returns the list of callbacks it fires.
-/

set_option maxRecDepth 100000
set_option maxHeartbeats 4000000

namespace AsyncHTTPRequest

/-- `HTTP_BUFFER_FRAGMENT_SIZE` from `AsyncHTTPRequest.h`. -/
def HTTP_BUFFER_FRAGMENT_SIZE : Nat := 512

/-- `HTTP_MAX_LINE_LENGTH` from `AsyncHTTPRequest.cpp`. -/
def HTTP_MAX_LINE_LENGTH : Nat := 512

/-- Concretization of uninitialized fragment bytes. -/
def garbageByte : Nat := 0

def byteCR : Nat := 13

def byteLF : Nat := 10

/-- Byte list of an ASCII string literal. -/
def strB (s : String) : List Nat := s.data.map (fun c => c.toNat)

/-- `isdigit` on a byte. -/
def isDigitB (c : Nat) : Bool := 48 ≤ c && c ≤ 57

/-- `tolower` on a byte, as used by `strcasecmp`. -/
def lowerByte (c : Nat) : Nat := if 65 ≤ c && c ≤ 90 then c + 32 else c

/-- `strcasecmp(a, b) == 0`. -/
def ciEq (a b : List Nat) : Bool := a.map lowerByte == b.map lowerByte

/-- `AsyncHTTPRequest::parseInteger`: unsigned decimal, stops at the first
non-digit, no overflow check. -/
def parseInteger : List Nat → Nat :=
  go 0
where
  go (acc : Nat) : List Nat → Nat
    | [] => acc
    | c :: rest => if isDigitB c then go (acc * 10 + (c - 48)) rest else acc

/-- `AsyncHTTPRequest::Buffer::Fragment`: a fixed-size byte array plus the
implicit chain link (the link is kept in the surrounding list). -/
structure Fragment where
  data : List Nat
deriving DecidableEq

/-- A fresh `new Fragment()`: uninitialized 512-byte array. -/
def newFragment : Fragment := ⟨List.replicate HTTP_BUFFER_FRAGMENT_SIZE garbageByte⟩

/-- `AsyncHTTPRequest::Buffer`: `start`/`end` are absolute byte offsets, the
fragment chain `first .. last` is the list `fragments`. -/
structure Buffer where
  start : Nat
  end_ : Nat
  fragments : List Fragment
deriving DecidableEq

/-- Default-constructed `Buffer`. -/
def Buffer.empty : Buffer := ⟨0, 0, []⟩

/-- `Buffer::available`. -/
def Buffer.available (b : Buffer) : Nat := b.end_ - b.start

/-- `Buffer::clear`: frees every fragment and resets both offsets. -/
def Buffer.clear (_b : Buffer) : Buffer := Buffer.empty

/-- `memcpy(dst + offset, src, src.length)` inside one fragment. -/
def listWriteAt (dst : List Nat) (offset : Nat) (src : List Nat) : List Nat :=
  dst.take offset ++ src ++ dst.drop (offset + src.length)

/-- Apply `f` to the last element (`last` pointer) of the fragment chain. -/
def updateLast (f : Fragment → Fragment) : List Fragment → List Fragment
  | [] => []
  | [x] => [f x]
  | x :: y :: xs => x :: updateLast f (y :: xs)

/-- Loop body of `Buffer::write`; one recursive call per loop iteration.
`fuel = d.length` always suffices because each iteration copies
`to_copy ≥ 1` bytes. -/
def Buffer.writeAux : Nat → Buffer → List Nat → Buffer
  | 0, b, _ => b
  | _ + 1, b, [] => b
  | fuel + 1, b, d@(_ :: _) =>
    let fs :=
      if b.fragments.isEmpty then [newFragment]
      else if b.end_ % HTTP_BUFFER_FRAGMENT_SIZE = 0 then b.fragments ++ [newFragment]
      else b.fragments
    let offset := b.end_ % HTTP_BUFFER_FRAGMENT_SIZE
    let to_copy := min (HTTP_BUFFER_FRAGMENT_SIZE - offset) d.length
    let fs' := updateLast (fun fr => ⟨listWriteAt fr.data offset (d.take to_copy)⟩) fs
    Buffer.writeAux fuel ⟨b.start, b.end_ + to_copy, fs'⟩ (d.drop to_copy)

/-- `Buffer::write(data, length)`. -/
def Buffer.write (b : Buffer) (d : List Nat) : Buffer := Buffer.writeAux d.length b d

/-- Loop body of `Buffer::read`; returns the bytes copied out (the `data`
destination) and the buffer after consuming.  `fuel = remaining` suffices
because each iteration consumes `left ≥ 1` bytes. -/
def Buffer.readAux : Nat → Buffer → Nat → List Nat × Buffer
  | 0, b, _ => ([], b)
  | fuel + 1, b, remaining =>
    if remaining = 0 then ([], b)
    else
      let offset := b.start % HTTP_BUFFER_FRAGMENT_SIZE
      let left := min (HTTP_BUFFER_FRAGMENT_SIZE - offset) remaining
      let chunk : List Nat :=
        match b.fragments with
        | [] => []
        | fr :: _ => (fr.data.drop offset).take left
      let start' := b.start + left
      let fs' := if start' % HTTP_BUFFER_FRAGMENT_SIZE = 0 then b.fragments.tail else b.fragments
      let r := Buffer.readAux fuel ⟨start', b.end_, fs'⟩ (remaining - left)
      (chunk ++ r.1, r.2)

/-- `Buffer::read(data, length)`: clamps to `available()`, consumes, frees
drained fragments, resets to the empty state when everything is consumed. -/
def Buffer.read (b : Buffer) (length : Nat) : List Nat × Buffer :=
  let len := min length b.available
  let r := Buffer.readAux len b len
  if r.2.start = r.2.end_ then (r.1, Buffer.empty) else r

/-- `Buffer::consume(length)` = `read(nullptr, length)`. -/
def Buffer.consume (b : Buffer) (length : Nat) : Buffer := (b.read length).2

/-- `Buffer::get(length)`: peek at up to `length` contiguous bytes of the
first fragment without consuming; `none` models the `nullptr` return. -/
def Buffer.get (b : Buffer) (length : Nat) : Option (List Nat × Nat) :=
  let offset := b.start % HTTP_BUFFER_FRAGMENT_SIZE
  let l1 := min length b.available
  let l2 := min l1 (HTTP_BUFFER_FRAGMENT_SIZE - offset)
  if l2 = 0 then none
  else
    match b.fragments with
    | [] => none
    | fr :: _ => some ((fr.data.drop offset).take l2, l2)

/-- The bytes currently buffered, in order (abstraction function). -/
def Buffer.contents (b : Buffer) : List Nat :=
  (((b.fragments.map Fragment.data).flatten).drop
      (b.start % HTTP_BUFFER_FRAGMENT_SIZE)).take (b.end_ - b.start)

/-- Result of `Buffer::readline`: `noData` is the `NULL` return,
`line l b` returns the NUL-terminated line `l` with the buffer `b` after
consumption, and `nullDeref` marks the undefined behaviour where the scan
walks off the fragment chain and dereferences a null `fragment` pointer. -/
inductive ReadlineResult where
  | noData : ReadlineResult
  | line : List Nat → Buffer → ReadlineResult
  | nullDeref : ReadlineResult
deriving DecidableEq

def ReadlineResult.lineBytes : ReadlineResult → Option (List Nat)
  | .line l _ => some l
  | _ => none

def ReadlineResult.restBuf : ReadlineResult → Option Buffer
  | .line _ b => some b
  | _ => none

/-- One-fragment scan step of `Buffer::readline`: either the newline is
found (with the running count `n` and the `cr` flag at that moment) or the
fragment is exhausted.  `k` is the remaining positions `F - i`. -/
inductive ScanStep where
  | found : Nat → Bool → ScanStep
  | exhausted : Nat → Bool → ScanStep
deriving DecidableEq

def scanOne : Nat → List Nat → Nat → Nat → Bool → ScanStep
  | 0, _, _, n, cr => .exhausted n cr
  | k + 1, dat, i, n, cr =>
    let c := dat.getD i garbageByte
    let n' := n + 1
    if c = byteCR then scanOne k dat (i + 1) n' true
    else if c = byteLF then .found n' cr
    else scanOne k dat (i + 1) n' false

/-- Fragment-chain loop of `Buffer::readline`.  When the chain runs out the
C++ loop condition `fragment || i < (end % F)` re-enters the body with a
null `fragment` whenever `end % F ≠ 0` (here `i = 0` after advancing), so
the modelled result is `nullDeref`; otherwise the loop exits and returns `NULL`. -/
def readlineFrags (b : Buffer) (maxLen : Nat) :
    List Fragment → Nat → Nat → Bool → ReadlineResult
  | [], i, _, _ =>
    if i < b.end_ % HTTP_BUFFER_FRAGMENT_SIZE then .nullDeref else .noData
  | fr :: rest, i, n, cr =>
    match scanOne (HTTP_BUFFER_FRAGMENT_SIZE - i) fr.data i n cr with
    | .found n1 cr1 =>
      let nl := if n1 > maxLen then maxLen else n1
      let strip : Nat := if n1 > maxLen then 1 else if cr1 then 2 else 1
      let r := b.read nl
      .line (r.1.take (nl - strip)) r.2
    | .exhausted n1 cr1 => readlineFrags b maxLen rest 0 n1 cr1

/-- `Buffer::readline(data, length)`. -/
def Buffer.readline (b : Buffer) (maxLen : Nat) : ReadlineResult :=
  readlineFrags b maxLen b.fragments (b.start % HTTP_BUFFER_FRAGMENT_SIZE) 0 false

/-- `enum State` from `AsyncHTTPRequest.h`. -/
inductive State where
  | EMPTY
  | ERROR
  | CONNECTING
  | SENDING_REQUEST
  | SENDING_BODY
  | RECEIVING_STATUS_LINE
  | RECEIVING_HEADERS
  | RECEIVING_BODY
  | COMPLETE
deriving DecidableEq

/-- `enum Error` from `AsyncHTTPRequest.h`. -/
inductive Error where
  | ERROR_OK
  | ERROR_SCHEME
  | ERROR_IN_USE
  | ERROR_CANNOT_CONNECT
  | ERROR_TIMEOUT
  | ERROR_CONNECTION_CLOSED
deriving DecidableEq

/-- A user callback fired by the notification dispatcher
(`post_notifications`); handlers are modelled as always registered. -/
inductive Notification where
  | errorFired : Error → Notification
  | dataFired : Notification
  | completeFired : Notification
deriving DecidableEq

/-- The mutable fields of one `AsyncHTTPRequest` object (initializers as in
`AsyncHTTPRequest.h`).  `clientAlive` models `client != nullptr`.  The
mutex, task handle and callback std::functions carry no protocol state and
are not represented. -/
structure Machine where
  state : State
  current_error : Error
  lastErrorString : String
  buffer : Buffer
  requestBody : Option Buffer
  httpStatus : Nat
  chunkedResponse : Bool
  chunkSize : Nat
  inChunkSize : Bool
  responseContentLength : Nat
  dataReceived : Nat
  haveContentLength : Bool
  responseBody : Option Buffer
  response_content_type : List Nat
  notify_data : Bool
  notify_complete : Bool
  notify_error : Bool
  clientAlive : Bool
deriving DecidableEq

/-- A default-constructed `AsyncHTTPRequest`. -/
def Machine.empty : Machine :=
  { state := .EMPTY
    current_error := .ERROR_OK
    lastErrorString := ""
    buffer := Buffer.empty
    requestBody := none
    httpStatus := 0
    chunkedResponse := false
    chunkSize := 0
    inChunkSize := false
    responseContentLength := 0
    dataReceived := 0
    haveContentLength := false
    responseBody := none
    response_content_type := []
    notify_data := false
    notify_complete := false
    notify_error := false
    clientAlive := false }

/-- `AsyncHTTPRequest::error()`. -/
def Machine.error (m : Machine) : Error := m.current_error

/-- `AsyncHTTPRequest::isComplete()`. -/
def Machine.isComplete (m : Machine) : Bool :=
  m.state = State.ERROR || m.state = State.COMPLETE

/-- `AsyncHTTPRequest::status()`. -/
def Machine.status (m : Machine) : Nat := m.httpStatus

/-- `AsyncHTTPRequest::contentLength()`. -/
def Machine.contentLength (m : Machine) : Nat :=
  if m.haveContentLength then m.responseContentLength
  else if m.state = State.COMPLETE then m.dataReceived
  else 0

/-- The response body accumulated so far (contents of `responseBody`). -/
def Machine.bodyBytes (m : Machine) : List Nat :=
  match m.responseBody with
  | none => []
  | some b => b.contents

/-- The base message chosen in `handleError(Error, const char*)`. -/
def errorMessage : Error → String
  | .ERROR_OK => "No error"
  | .ERROR_SCHEME => "Unsupported URL scheme"
  | .ERROR_IN_USE => "Request already started"
  | .ERROR_CANNOT_CONNECT => "Cannot connect"
  | .ERROR_TIMEOUT => "Request timed out"
  | .ERROR_CONNECTION_CLOSED => "Server closed connection"

/-- `AsyncHTTPRequest::handleError(Error new_error, const char* detail)`:
records the first error only; note that `call_handler` is computed as
`state == EMPTY`, so `notify_error` is raised only for errors that occur
before `send()` has moved the machine out of `EMPTY`. -/
def Machine.handleErrorE (m : Machine) (new_error : Error) (detail : Option String) : Machine :=
  if m.state ≠ State.ERROR then
    let call_handler : Bool := m.state = State.EMPTY
    let msg :=
      match detail with
      | none => errorMessage new_error
      | some d => errorMessage new_error ++ ": " ++ d
    { m with
      current_error := new_error
      state := .ERROR
      lastErrorString := msg
      notify_error := if call_handler then true else m.notify_error }
  else m

/-- `AsyncHTTPRequest::requestCompleted()`. -/
def Machine.requestCompleted (m : Machine) : Machine :=
  { m with state := .COMPLETE, notify_complete := true }

/-- `AsyncHTTPRequest::processBodyData(data, length)`: clamps to the
declared content length, appends to `responseBody` (allocating it on first
use), advances `dataReceived`, raises the data notification (and wakes a
registered blocking reader), and completes when the declared length has
been received. -/
def Machine.processBodyData (m : Machine) (d : List Nat) : Machine :=
  let length :=
    if m.haveContentLength && decide (m.dataReceived + d.length > m.responseContentLength)
    then m.responseContentLength - m.dataReceived
    else d.length
  let body := (m.responseBody.getD Buffer.empty).write (d.take length)
  let m1 :=
    { m with
      responseBody := some body
      dataReceived := m.dataReceived + length
      notify_data := true }
  if m1.haveContentLength && decide (m1.dataReceived ≥ m1.responseContentLength)
  then m1.requestCompleted
  else m1

/-- `AsyncHTTPRequest::post_notifications()`: fires the pending callbacks
after the lock is dropped; an error suppresses data/completion and tears
the client down, completion also tears the client down. -/
def Machine.post_notifications (m : Machine) : Machine × List Notification :=
  if m.notify_error then
    ({ m with
        notify_error := false
        notify_data := false
        notify_complete := false
        clientAlive := false },
      [Notification.errorFired m.current_error])
  else
    let p :=
      if m.notify_data then ({ m with notify_data := false }, [Notification.dataFired])
      else (m, ([] : List Notification))
    if p.1.notify_complete then
      ({ p.1 with notify_complete := false, clientAlive := false },
        p.2 ++ [Notification.completeFired])
    else p

/-- `AsyncHTTPRequest::parseStatusLine(line)`: skip to the first space,
skip spaces, parse the status integer, move to `RECEIVING_HEADERS`;
a line without a space is silently ignored. -/
def Machine.parseStatusLine (m : Machine) (line : List Nat) : Machine :=
  match line.findIdx? (fun c => c = 32) with
  | none => m
  | some idx =>
    let rest := (line.drop idx).dropWhile (fun c => c = 32)
    { m with httpStatus := parseInteger rest, state := .RECEIVING_HEADERS }

/-- Loop at the end of headers in `parseHeader`: drain every byte still in
`buffer` (in `HTTP_BUFFER_FRAGMENT_SIZE`-sized reads) into
`processBodyData`.  Each successful read consumes at least one byte, so
`fuel = available + 1` suffices. -/
def Machine.drainBodyLoop : Nat → Machine → Machine
  | 0, m => m
  | fuel + 1, m =>
    let r := m.buffer.read HTTP_BUFFER_FRAGMENT_SIZE
    if r.1.isEmpty then m
    else Machine.drainBodyLoop fuel (({ m with buffer := r.2 }).processBodyData r.1)

/-- `AsyncHTTPRequest::parseHeader(line)`.  An empty line ends the headers:
state moves to `RECEIVING_BODY`, the `beginResponse` callback fires inline
(no machine-state effect, not modelled), and bytes already buffered past
the header terminator are fed to body processing.  Otherwise the line is
split at `:`; lines without a colon are silently ignored; recognized
headers are `Content-Length`, `Content-Type` and
`Transfer-Encoding: chunked` (case-insensitive names). -/
def Machine.parseHeaderLine (m : Machine) (line : List Nat) : Machine :=
  if line.isEmpty then
    let m1 := { m with state := State.RECEIVING_BODY }
    Machine.drainBodyLoop (m1.buffer.available + 1) m1
  else
    match line.findIdx? (fun c => c = 58) with
    | none => m
    | some idx =>
      let name := line.take idx
      let value := (line.drop (idx + 1)).dropWhile (fun c => c = 32 || c = 9)
      if ciEq name (strB "Content-Length") then
        { m with responseContentLength := parseInteger value, haveContentLength := true }
      else if ciEq name (strB "Content-Type") then
        { m with response_content_type := value }
      else if ciEq name (strB "Transfer-Encoding") then
        if ciEq value (strB "chunked") then
          { m with chunkedResponse := true, inChunkSize := true, chunkSize := 0 }
        else m
      else m

/-- Line-extraction loop of `handleData` in `RECEIVING_STATUS_LINE` /
`RECEIVING_HEADERS`: read one line at a time until no full line is
available or the state leaves the header phase.  A `nullDeref` from
`readline` is undefined behaviour in the C++ (the scenarios proved below
never reach it); the model stops there.  Each extracted line consumes at
least one byte, so `fuel = available + 1` suffices. -/
def Machine.headerLoop : Nat → Machine → Machine
  | 0, m => m
  | fuel + 1, m =>
    if m.state = State.RECEIVING_STATUS_LINE || m.state = State.RECEIVING_HEADERS then
      match m.buffer.readline HTTP_MAX_LINE_LENGTH with
      | .noData => m
      | .nullDeref => m
      | .line l b' =>
        let m1 := { m with buffer := b' }
        let m2 :=
          if m1.state = State.RECEIVING_STATUS_LINE then m1.parseStatusLine l
          else m1.parseHeaderLine l
        Machine.headerLoop fuel m2
    else m

/-- `AsyncHTTPRequest::handleData(data, length)`.  Note that the
header-phase case `return`s from inside the `switch`, skipping
`post_notifications`, and that the `RECEIVING_BODY` case always calls
`processBodyData` — never `processChunkedBodyData` — even when the
response declared chunked transfer encoding. -/
def Machine.handleData (m : Machine) (d : List Nat) : Machine × List Notification :=
  match m.state with
  | .RECEIVING_STATUS_LINE | .RECEIVING_HEADERS =>
    let m1 := { m with buffer := m.buffer.write d }
    (Machine.headerLoop (m1.buffer.available + 1) m1, [])
  | .RECEIVING_BODY => (m.processBodyData d).post_notifications
  | _ => m.post_notifications

/-- `AsyncHTTPRequest::handleDisconnect()`. -/
def Machine.handleDisconnect (m : Machine) : Machine × List Notification :=
  let m1 :=
    match m.state with
    | .RECEIVING_BODY =>
      if !m.chunkedResponse && !m.haveContentLength then m.requestCompleted
      else m.handleErrorE .ERROR_CONNECTION_CLOSED none
    | .CONNECTING | .SENDING_REQUEST | .SENDING_BODY
    | .RECEIVING_STATUS_LINE | .RECEIVING_HEADERS =>
      m.handleErrorE .ERROR_CONNECTION_CLOSED none
    | .EMPTY | .ERROR | .COMPLETE => m
  ({ m1 with clientAlive := false }).post_notifications

/-- `AsyncHTTPRequest::handleError(int error)`: a transport error event;
`errText` is `client->errorToString(error)`. -/
def Machine.handleErrorCode (m : Machine) (errText : String) : Machine × List Notification :=
  let m1 :=
    if m.state = State.CONNECTING then m.handleErrorE .ERROR_CANNOT_CONNECT (some errText)
    else m.handleErrorE .ERROR_CONNECTION_CLOSED (some errText)
  ({ m1 with clientAlive := false }).post_notifications

/-- `AsyncHTTPRequest::handleTimeout(timeout)`. -/
def Machine.handleTimeout (m : Machine) : Machine × List Notification :=
  let m1 := m.handleErrorE .ERROR_TIMEOUT none
  ({ m1 with clientAlive := false }).post_notifications

/-- Inner loop of `AsyncHTTPRequest::sendData(Buffer*)` with the transport
modelled as accepting everything offered (`client->add` returns the full
length).  Returns the drained buffer and the boolean result (`true` when
the buffer ran out of data, `false` when the send window was filled).
Each iteration sends `len ≥ 1` bytes, so `fuel = space` suffices. -/
def sendDataLoopAux : Nat → Buffer → Nat → Buffer × Bool
  | 0, b, _ => (b, false)
  | fuel + 1, b, to_send =>
    if to_send = 0 then (b, false)
    else
      match b.get to_send with
      | none => (b, true)
      | some (_, len) => sendDataLoopAux fuel (b.consume len) (to_send - len)

/-- `AsyncHTTPRequest::sendData(Buffer* buffer)` where `space` is the
transport's `client->space()`. -/
def sendDataBuf (b : Buffer) (space : Nat) : Buffer × Bool := sendDataLoopAux space b space

/-- First `if` block of `AsyncHTTPRequest::sendData()`: in
`SENDING_REQUEST`, drain the request buffer; when it empties, move to
`SENDING_BODY` (body present) or `RECEIVING_STATUS_LINE`. -/
def Machine.sendPhase1 (m : Machine) (space : Nat) : Machine :=
  if m.state = State.SENDING_REQUEST then
    match sendDataBuf m.buffer space with
    | (b', true) =>
      if m.requestBody.isSome then { m with buffer := b', state := .SENDING_BODY }
      else { m with buffer := b', state := .RECEIVING_STATUS_LINE }
    | (b', false) => { m with buffer := b' }
  else m

/-- Second `if` block of `AsyncHTTPRequest::sendData()`: in
`SENDING_BODY`, drain the body buffer; when it empties, move to
`RECEIVING_STATUS_LINE`. -/
def Machine.sendPhase2 (m1 : Machine) (space : Nat) : Machine :=
  if m1.state = State.SENDING_BODY then
    match m1.requestBody with
    | some rb =>
      match sendDataBuf rb space with
      | (rb', true) => { m1 with requestBody := some rb', state := .RECEIVING_STATUS_LINE }
      | (rb', false) => { m1 with requestBody := some rb' }
    | none => m1
  else m1

/-- `AsyncHTTPRequest::sendData()`: the two blocks in sequence. -/
def Machine.sendDataM (m : Machine) (space : Nat) : Machine :=
  (m.sendPhase1 space).sendPhase2 space

/-- `AsyncHTTPRequest::handleAck(len, time)`: `len`/`time` are unused by
the handler. -/
def Machine.handleAck (m : Machine) (space : Nat) : Machine × List Notification :=
  let m1 := if m.state = State.CONNECTING then { m with state := .SENDING_REQUEST } else m
  (m1.sendDataM space).post_notifications

/-- `AsyncHTTPRequest::handleConnect()`: note the unconditional
`state = SENDING_REQUEST` — there is no check of the current state. -/
def Machine.handleConnect (m : Machine) (space : Nat) : Machine × List Notification :=
  let m1 := { m with state := State.SENDING_REQUEST }
  (m1.sendDataM space).post_notifications

/-- `AsyncHTTPRequest::URL`: scheme, host, port (0 when absent), path. -/
structure URL where
  scheme : String
  host : String
  port : Nat
  path : String
deriving DecidableEq

/-- `AsyncHTTPRequest::URL::URL(const char*)`. -/
def URL.parse (url : String) : URL :=
  let cs := url.data
  match cs.findIdx? (fun c => c = ':') with
  | none => ⟨url, "", 0, ""⟩
  | some ci =>
    let scheme := String.mk (cs.take ci)
    let rest0 := cs.drop (ci + 1)
    if rest0.take 2 ≠ ['/', '/'] then ⟨scheme, "", 0, String.mk rest0⟩
    else
      let rest := rest0.drop 2
      let slashIdx := (rest.findIdx? (fun c => c = '/')).getD rest.length
      let path := String.mk (rest.drop slashIdx)
      match rest.findIdx? (fun c => c = ':') with
      | some ci2 =>
        if ci2 < slashIdx then
          ⟨scheme, String.mk (rest.take ci2),
            parseInteger ((rest.drop (ci2 + 1)).map Char.toNat), path⟩
        else
          ⟨scheme, String.mk (rest.take slashIdx), defaultPort scheme, path⟩
      | none => ⟨scheme, String.mk (rest.take slashIdx), defaultPort scheme, path⟩
where
  defaultPort (scheme : String) : Nat :=
    if scheme = "http" then 80 else if scheme = "https" then 443 else 0

/-- The request line and headers serialized into the outgoing buffer by
`send` (the sequence of `buffer.print` calls). -/
def requestBytes (method : String) (u : URL) (content_type : Option String)
    (body : Option Buffer) : List Nat :=
  strB method ++ strB " " ++ strB u.path ++ strB " HTTP/1.1\r\nHost: " ++ strB u.host ++
    strB "\r\n" ++
    (match body with
     | none => []
     | some b =>
       (match content_type with
        | none => []
        | some ct => strB "Content-Type: " ++ strB ct ++ strB "\r\n") ++
       strB "Content-Length: " ++ strB (toString b.available) ++ strB "\r\n") ++
    strB "\r\n"

/-- `AsyncHTTPRequest::send(method, url, content_type, body)`.  Mutex
creation is modelled as succeeding; `connectOk` is the immediate result of
`client->connect`.  Returns the C++ return value together with the new
machine state. -/
def Machine.send (m : Machine) (method url : String) (content_type : Option String)
    (body : Option Buffer) (connectOk : Bool) : Error × Machine :=
  if m.state ≠ State.EMPTY then
    let m' := m.handleErrorE .ERROR_IN_USE none
    (m'.error, m')
  else
    let u := URL.parse url
    if u.scheme = "http" || u.scheme = "https" then
      let m1 :=
        { m with
          buffer := m.buffer.write (requestBytes method u content_type body)
          requestBody := body
          state := .CONNECTING
          clientAlive := true }
      if connectOk then (.ERROR_OK, m1)
      else
        let m2 := m1.handleErrorE .ERROR_CANNOT_CONNECT none
        let m3 := { m2 with buffer := Buffer.empty, requestBody := none, clientAlive := false }
        (m3.error, m3)
    else
      let m' := m.handleErrorE .ERROR_SCHEME (some u.scheme)
      (m'.error, m')

/-- `AsyncHTTPRequest::get(url)` (in `AsyncHTTPRequest.h`): the body calls
`send("GET", url, nullptr, nullptr)` but has no `return` statement, so the
`Error` it returns is indeterminate — modelled as `none`. -/
def Machine.get (m : Machine) (url : String) (connectOk : Bool) : Option Error × Machine :=
  let r := m.send "GET" url none none connectOk
  (none, r.2)

/-- `AsyncHTTPRequest::post(url, content_type, body)` (in
`AsyncHTTPRequest.h`): same missing `return` as `get`. -/
def Machine.post (m : Machine) (url : String) (content_type : Option String)
    (body : Option Buffer) (connectOk : Bool) : Option Error × Machine :=
  let r := m.send "POST" url content_type body connectOk
  (none, r.2)

/-- `AsyncHTTPRequest::abort()`: declared but unimplemented (TODO in the
source) — takes the lock and does nothing. -/
def Machine.abortReq (m : Machine) : Machine := m

/-- One external stimulus on a request object: a transport event or an API
call.  `space` parameters are the transport's current send window. -/
inductive Event where
  | evConnect : Nat → Event
  | evAck : Nat → Event
  | evData : List Nat → Event
  | evDisconnect : Event
  | evError : String → Event
  | evTimeout : Event
  | evSend : String → String → Option String → Option Buffer → Bool → Event
  | evAbort : Event

def Event.isConnect : Event → Bool
  | .evConnect _ => true
  | _ => false

/-- The machine-state effect of one event (return values and fired
callbacks discarded). -/
def Machine.step (m : Machine) : Event → Machine
  | .evConnect space => (m.handleConnect space).1
  | .evAck space => (m.handleAck space).1
  | .evData d => (m.handleData d).1
  | .evDisconnect => m.handleDisconnect.1
  | .evError txt => (m.handleErrorCode txt).1
  | .evTimeout => m.handleTimeout.1
  | .evSend method url ct body ok => (m.send method url ct body ok).2
  | .evAbort => m.abortReq

/-- Control position inside `AsyncHTTPRequest::processChunkedBodyData`:
`outer d` is the head of the outer `while (length > 0)` loop with `d` the
remaining data, `inner d i` is the head of the inner
`while (i < length)` loop scanning the chunk-size line, `done` is a
`return` / fall-through exit. -/
inductive ChunkPhase where
  | outer : List Nat → ChunkPhase
  | inner : List Nat → Nat → ChunkPhase
  | done : ChunkPhase
deriving DecidableEq

/-- The digit-scanning loop `while (i < length && isdigit(data[i]))` of
`processChunkedBodyData`; accumulates into `chunkSize` (which is *not*
reset beforehand).  Returns the machine and the index reached. -/
def chunkDigitsGo : Nat → Machine → List Nat → Nat → Machine × Nat
  | 0, m, _, i => (m, i)
  | k + 1, m, d, i =>
    let c := d.getD i garbageByte
    if i < d.length && isDigitB c then
      chunkDigitsGo k { m with chunkSize := m.chunkSize * 10 + (c - 48) } d (i + 1)
    else (m, i)

/-- One loop iteration of `processChunkedBodyData`.  The `'\r'` branch of
the inner loop executes `continue` *without* incrementing `i`, so it maps
the state to itself — the C++ loop never terminates on a carriage
return. -/
def chunkStep (s : Machine × ChunkPhase) : Machine × ChunkPhase :=
  match s with
  | (m, .outer d) =>
    if d.length = 0 then (m, .done)
    else if m.inChunkSize then
      let r := chunkDigitsGo d.length m d 0
      (r.1, .inner d r.2)
    else
      let data_length := min d.length m.chunkSize
      let m1 := m.processBodyData (d.take data_length)
      let m2 := { m1 with chunkSize := m1.chunkSize - data_length }
      let m3 := if m2.chunkSize = 0 then { m2 with inChunkSize := true } else m2
      (m3, .outer (d.drop data_length))
  | (m, .inner d i) =>
    if i < d.length then
      let c := d.getD i garbageByte
      if c = byteCR then (m, .inner d i)
      else if c = byteLF then
        let m1 := { m with inChunkSize := false }
        if m1.chunkSize = 0 then (m1.requestCompleted, .done)
        else (m1, .inner (d.drop i) (i + 1))
      else (m, .inner d (i + 1))
    else (m, .outer d)
  | (m, .done) => (m, .done)

/-- Run `processChunkedBodyData`'s loops for at most `fuel` iterations;
`none` means the function has not returned within `fuel` steps. -/
def runChunked : Nat → Machine × ChunkPhase → Option Machine
  | 0, _ => none
  | _ + 1, (m, .done) => some m
  | fuel + 1, s => runChunked fuel (chunkStep s)

/-- `AsyncHTTPRequest::processChunkedBodyData(data, length)`, fuelled. -/
def Machine.processChunkedBodyData (m : Machine) (d : List Nat) (fuel : Nat) : Option Machine :=
  runChunked fuel (m, .outer d)

/-! ### Abstraction of the fragment chain for the round-trip proof

`buildFrags l` is the fragment chain that holds exactly the byte sequence
`l` written from the start of an empty buffer: every fragment is full
except possibly the last, whose tail is uninitialized (`garbageByte`). -/

/-- One fragment holding `l` (with `l.length ≤ 512`) followed by its
uninitialized tail. -/
def padTo (l : List Nat) : List Nat :=
  l ++ List.replicate (HTTP_BUFFER_FRAGMENT_SIZE - l.length) garbageByte

def buildFragsAux : Nat → List Nat → List Fragment
  | 0, _ => []
  | _ + 1, [] => []
  | k + 1, l@(_ :: _) =>
    ⟨padTo (l.take HTTP_BUFFER_FRAGMENT_SIZE)⟩ ::
      buildFragsAux k (l.drop HTTP_BUFFER_FRAGMENT_SIZE)

def buildFrags (l : List Nat) : List Fragment := buildFragsAux l.length l

/-- The buffer state after writing exactly `l` into an empty buffer. -/
def mkBuf (l : List Nat) : Buffer := ⟨0, l.length, buildFrags l⟩

/-! ### Concrete scenario states used by the claims -/

/-- A machine that has sent its request and awaits the status line. -/
def mRSLC5 : Machine := { Machine.empty with state := .RECEIVING_STATUS_LINE, clientAlive := true }

/-- C5 scenario after the header bytes arrive. -/
def c5h : Machine :=
  (mRSLC5.handleData (strB "HTTP/1.1 200 OK\r\nContent-Length: 11\r\n\r\n")).1

/-- C5 scenario after the first body fragment. -/
def c5a : Machine := (c5h.handleData (strB "Hello ")).1

/-- C5 scenario after the second body fragment. -/
def c5b : Machine := (c5a.handleData (strB "World!")).1

/-- A machine whose response declared `Transfer-Encoding: chunked` and
whose headers are finished (the state `parseHeader` leaves behind). -/
def mChunkC4 : Machine :=
  { Machine.empty with
    state := .RECEIVING_BODY
    chunkedResponse := true
    inChunkSize := true
    clientAlive := true }

/-- C4 scenario: the three chunked body packets fed through the
data-arrival path. -/
def c4s : Machine :=
  (((mChunkC4.handleData (strB "5\r\nHello\r\n")).1.handleData
      (strB "6\r\n World!\r\n")).1.handleData (strB "0\r\n\r\n")).1

/-- A machine in `CONNECTING` (after a successful `send`). -/
def mConnC : Machine := { Machine.empty with state := .CONNECTING, clientAlive := true }

/-- A machine already in the `ERROR` state with a recorded error. -/
def mErrC : Machine :=
  { Machine.empty with
    state := .ERROR
    current_error := .ERROR_TIMEOUT
    lastErrorString := errorMessage .ERROR_TIMEOUT }

/-- A buffer holding three bytes and no newline. -/
def bNoNL : Buffer := Buffer.empty.write (strB "abc")

/-- A buffer holding a 600-character line plus its newline. -/
def bLong : Buffer := Buffer.empty.write (List.replicate 600 97 ++ [byteLF])

/-- A machine in `RECEIVING_BODY` with neither content length nor chunked
encoding (close-delimited body). -/
def mBodyC8 : Machine :=
  { Machine.empty with
    state := .RECEIVING_BODY
    dataReceived := 4
    responseBody := some (Buffer.empty.write (strB "data"))
    clientAlive := true }

/-- A machine with a parsed `Content-Length` header. -/
def mCLC10 : Machine :=
  { Machine.empty with
    state := .RECEIVING_BODY
    haveContentLength := true
    responseContentLength := 7
    clientAlive := true }

/-- A machine used to witness the `processBodyData` clamp. -/
def mClampC5 : Machine :=
  { Machine.empty with
    state := .RECEIVING_BODY
    haveContentLength := true
    responseContentLength := 5
    dataReceived := 2
    clientAlive := true }

/-! ### Helper lemmas -/

theorem post_state (m : Machine) : m.post_notifications.1.state = m.state := by
  unfold Machine.post_notifications
  dsimp only
  split_ifs <;> rfl

theorem post_current_error (m : Machine) :
    m.post_notifications.1.current_error = m.current_error := by
  unfold Machine.post_notifications
  dsimp only
  split_ifs <;> rfl

theorem post_responseBody (m : Machine) :
    m.post_notifications.1.responseBody = m.responseBody := by
  unfold Machine.post_notifications
  dsimp only
  split_ifs <;> rfl

theorem post_dataReceived (m : Machine) :
    m.post_notifications.1.dataReceived = m.dataReceived := by
  unfold Machine.post_notifications
  dsimp only
  split_ifs <;> rfl

theorem sendPhase1_state (m : Machine) (space : Nat) :
    (m.sendPhase1 space).state = m.state ∨
    (m.sendPhase1 space).state = State.SENDING_BODY ∨
    (m.sendPhase1 space).state = State.RECEIVING_STATUS_LINE := by
  unfold Machine.sendPhase1
  split
  · rcases hsb : sendDataBuf m.buffer space with ⟨b1, d1⟩
    cases d1
    · simp [hsb]
    · simp only [hsb]
      split <;> simp
  · simp

theorem sendPhase2_state (m : Machine) (space : Nat) :
    (m.sendPhase2 space).state = m.state ∨
    (m.sendPhase2 space).state = State.RECEIVING_STATUS_LINE := by
  unfold Machine.sendPhase2
  split
  · rcases hrb : m.requestBody with _ | rb
    · simp [hrb]
    · rcases hsb : sendDataBuf rb space with ⟨b1, d1⟩
      cases d1 <;> simp [hrb, hsb]
  · simp

theorem handleErrorE_absorbed (m : Machine) (e : Error) (d : Option String)
    (h : m.state = State.ERROR) : m.handleErrorE e d = m := by
  unfold Machine.handleErrorE
  rw [if_neg (by simp [h])]

theorem sendDataM_other (m : Machine) (space : Nat)
    (h1 : m.state ≠ State.SENDING_REQUEST) (h2 : m.state ≠ State.SENDING_BODY) :
    m.sendDataM space = m := by
  unfold Machine.sendDataM Machine.sendPhase1 Machine.sendPhase2
  simp [h1, h2]

theorem sendDataM_ne_error (m : Machine) (space : Nat) (h : m.state ≠ State.ERROR) :
    (m.sendDataM space).state ≠ State.ERROR := by
  unfold Machine.sendDataM
  rcases sendPhase2_state (m.sendPhase1 space) space with h2 | h2 <;> rw [h2]
  · rcases sendPhase1_state m space with h1 | h1 | h1 <;> rw [h1]
    · exact h
    · simp
    · simp
  · simp

/-! ### Claim C10 -/

/-- Claim C10: `contentLength()` returns the declared `Content-Length`
value as soon as the header flag is set (in every state), returns the
bytes received so far when no `Content-Length` was seen and the state is
`COMPLETE`, and returns 0 otherwise. -/
theorem claim_C10_contentLength (m : Machine) :
    (m.haveContentLength = true → m.contentLength = m.responseContentLength) ∧
    (m.haveContentLength = false → m.state = State.COMPLETE →
      m.contentLength = m.dataReceived) ∧
    (m.haveContentLength = false → m.state ≠ State.COMPLETE → m.contentLength = 0) := by
  unfold Machine.contentLength
  refine ⟨fun h => by simp [h], fun h hc => by simp [h, hc], fun h hc => by simp [h, hc]⟩

/-- Witness for C10 at a machine with a parsed `Content-Length: 7` that is
still receiving its body. -/
theorem claim_C10_witness :
    (mCLC10.haveContentLength = true) ∧ mCLC10.contentLength = mCLC10.responseContentLength :=
  ⟨rfl, (claim_C10_contentLength mCLC10).1 rfl⟩

/-! ### Claim C7 -/

/-- Claim C7: `get(url)` and `post(url, content_type, body)` perform
exactly the state change of the corresponding `send` call, but both
wrappers lack a `return` statement, so the `Error` value they return is
indeterminate (modelled as `none`) rather than `send`'s result. -/
theorem claim_C7_wrappers (m : Machine) (url : String) (ct : Option String)
    (body : Option Buffer) (ok : Bool) :
    (m.get url ok).2 = (m.send "GET" url none none ok).2 ∧
    (m.post url ct body ok).2 = (m.send "POST" url ct body ok).2 ∧
    (m.get url ok).1 = none ∧ (m.post url ct body ok).1 = none :=
  ⟨rfl, rfl, rfl, rfl⟩

/-! ### Claim C3 -/

/-- Claim C3 fails on the code: `handleError(Error, const char*)` computes
`call_handler = (state == EMPTY)`, so an error that moves the machine from
the non-terminal, non-`EMPTY` state `CONNECTING` into `ERROR` (here a
transport timeout) does not raise `notify_error`, and the following
notification dispatch fires no callback at all. -/
theorem claim_C3_error_callback_not_fired :
    (mConnC.handleErrorE .ERROR_TIMEOUT none).state = State.ERROR ∧
    (mConnC.handleErrorE .ERROR_TIMEOUT none).current_error = Error.ERROR_TIMEOUT ∧
    (mConnC.handleErrorE .ERROR_TIMEOUT none).notify_error = false ∧
    mConnC.handleTimeout.2 = [] := by
  refine ⟨rfl, rfl, rfl, rfl⟩

/-! ### Claim C1 -/

/-- Claim C1 (amended): once the machine is in `ERROR`, every transport
event and API call other than a connect event leaves both the state tag
and the recorded error value unchanged; a connect event, however, moves
the machine out of `ERROR` (`handleConnect` assigns `SENDING_REQUEST`
unconditionally), so `ERROR` is not absorbing under connect events. -/
theorem claim_C1_error_absorbing (m : Machine) (e : Event) (h : m.state = State.ERROR) :
    (e.isConnect = false →
      (m.step e).state = State.ERROR ∧ (m.step e).current_error = m.current_error) ∧
    (e.isConnect = true → (m.step e).state ≠ State.ERROR) := by
  have hsr : m.state ≠ State.SENDING_REQUEST := by rw [h]; simp
  have hsb : m.state ≠ State.SENDING_BODY := by rw [h]; simp
  cases e with
  | evConnect space =>
    refine ⟨fun hc => by simp [Event.isConnect] at hc, fun _ => ?_⟩
    show ((({ m with state := State.SENDING_REQUEST }).sendDataM space).post_notifications).1.state ≠ _
    rw [post_state]
    exact sendDataM_ne_error _ space (by simp)
  | evAck space =>
    have hs : m.step (Event.evAck space) = m.post_notifications.1 := by
      show ((if m.state = State.CONNECTING then { m with state := State.SENDING_REQUEST }
              else m).sendDataM space).post_notifications.1 = _
      rw [if_neg (by rw [h]; simp), sendDataM_other m space hsr hsb]
    refine ⟨fun _ => ⟨?_, ?_⟩, fun hc => by simp [Event.isConnect] at hc⟩
    · rw [hs, post_state]; exact h
    · rw [hs, post_current_error]
  | evData d =>
    have hs : m.step (Event.evData d) = m.post_notifications.1 := by
      show (m.handleData d).1 = _
      unfold Machine.handleData
      rw [h]
    refine ⟨fun _ => ⟨?_, ?_⟩, fun hc => by simp [Event.isConnect] at hc⟩
    · rw [hs, post_state]; exact h
    · rw [hs, post_current_error]
  | evDisconnect =>
    have hs : m.step Event.evDisconnect = ({ m with clientAlive := false }).post_notifications.1 := by
      show (m.handleDisconnect).1 = _
      unfold Machine.handleDisconnect
      conv_lhs => rw [h]
    refine ⟨fun _ => ⟨?_, ?_⟩, fun hc => by simp [Event.isConnect] at hc⟩
    · rw [hs, post_state]; exact h
    · rw [hs, post_current_error]
  | evError txt =>
    have hs : m.step (Event.evError txt) =
        ({ m with clientAlive := false }).post_notifications.1 := by
      show ((({ (if m.state = State.CONNECTING
                  then m.handleErrorE .ERROR_CANNOT_CONNECT (some txt)
                  else m.handleErrorE .ERROR_CONNECTION_CLOSED (some txt)) with
              clientAlive := false }).post_notifications)).1 = _
      rw [if_neg (by rw [h]; simp), handleErrorE_absorbed _ _ _ h]
    refine ⟨fun _ => ⟨?_, ?_⟩, fun hc => by simp [Event.isConnect] at hc⟩
    · rw [hs, post_state]; exact h
    · rw [hs, post_current_error]
  | evTimeout =>
    have hs : m.step Event.evTimeout =
        ({ m with clientAlive := false }).post_notifications.1 := by
      show ((({ m.handleErrorE .ERROR_TIMEOUT none with
              clientAlive := false }).post_notifications)).1 = _
      rw [handleErrorE_absorbed _ _ _ h]
    refine ⟨fun _ => ⟨?_, ?_⟩, fun hc => by simp [Event.isConnect] at hc⟩
    · rw [hs, post_state]; exact h
    · rw [hs, post_current_error]
  | evSend method url ct body ok =>
    have hs : m.step (Event.evSend method url ct body ok) = m := by
      show (m.send method url ct body ok).2 = m
      unfold Machine.send
      rw [if_pos (show m.state ≠ State.EMPTY by rw [h]; simp)]
      dsimp only
      rw [handleErrorE_absorbed _ _ _ h]
    refine ⟨fun _ => ⟨?_, ?_⟩, fun hc => by simp [Event.isConnect] at hc⟩
    · rw [hs]; exact h
    · rw [hs]
  | evAbort =>
    exact ⟨fun _ => ⟨h, rfl⟩, fun hc => by simp [Event.isConnect] at hc⟩

/-- Counterexample for C1 as frozen: from a machine in `ERROR`, a transport
connect event changes the state tag away from `ERROR` (to
`SENDING_REQUEST`). -/
theorem claim_C1_counterexample :
    (mErrC.step (Event.evConnect 0)).state = State.SENDING_REQUEST ∧
    ¬ ((mErrC.step (Event.evConnect 0)).state = State.ERROR) := by
  refine ⟨by decide, by decide⟩

/-- Witness for C1: the amended claim applied to a concrete `ERROR` machine
and a timeout event. -/
theorem claim_C1_witness :
    mErrC.state = State.ERROR ∧
    ((Event.evTimeout.isConnect = false →
        (mErrC.step Event.evTimeout).state = State.ERROR ∧
        (mErrC.step Event.evTimeout).current_error = mErrC.current_error) ∧
      (Event.evTimeout.isConnect = true → (mErrC.step Event.evTimeout).state ≠ State.ERROR)) :=
  ⟨rfl, claim_C1_error_absorbing mErrC Event.evTimeout rfl⟩

/-! ### Claim C2 -/

/-- Claim C2 (amended): calling `send` on a machine that is not in `EMPTY`
builds no request and leaves the buffers and every parsed-response field
unchanged, but it does not leave *all* state unchanged: when the machine
is not already in `ERROR` it records `ERROR_IN_USE`, moves the state tag
to `ERROR` and sets the error string, and it returns the recorded error
value — `ERROR_IN_USE` in that case, the pre-existing error value when the
machine was already in `ERROR` (in which case nothing changes). -/
theorem claim_C2_send_in_use (m : Machine) (method url : String) (ct : Option String)
    (body : Option Buffer) (ok : Bool) (h : m.state ≠ State.EMPTY) :
    (m.send method url ct body ok).1 = (m.send method url ct body ok).2.current_error ∧
    (m.state = State.ERROR → (m.send method url ct body ok).2 = m) ∧
    (m.state ≠ State.ERROR →
      (m.send method url ct body ok).2 =
        { m with
          state := State.ERROR
          current_error := Error.ERROR_IN_USE
          lastErrorString := errorMessage .ERROR_IN_USE } ∧
      (m.send method url ct body ok).1 = Error.ERROR_IN_USE) := by
  unfold Machine.send
  rw [if_pos h]
  unfold Machine.handleErrorE Machine.error
  refine ⟨rfl, fun herr => ?_, fun herr => ?_⟩
  · rw [if_neg (by simp [herr])]
  · rw [if_pos herr]
    refine ⟨?_, rfl⟩
    simp [h]

/-- Counterexample for C2 as frozen: `send` on a machine in `CONNECTING`
does *not* leave the state tag unchanged — it moves it to `ERROR`. -/
theorem claim_C2_counterexample :
    (mConnC.send "GET" "http://host/x" none none true).2.state = State.ERROR ∧
    ¬ ((mConnC.send "GET" "http://host/x" none none true).2.state = mConnC.state) := by
  refine ⟨by decide, by decide⟩

/-- Witness for C2: the amended claim applied to a concrete machine in
`CONNECTING`. -/
theorem claim_C2_witness :
    mConnC.state ≠ State.EMPTY ∧
    ((mConnC.send "GET" "http://host/x" none none true).1 =
        (mConnC.send "GET" "http://host/x" none none true).2.current_error ∧
      (mConnC.state = State.ERROR → (mConnC.send "GET" "http://host/x" none none true).2 = mConnC) ∧
      (mConnC.state ≠ State.ERROR →
        (mConnC.send "GET" "http://host/x" none none true).2 =
          { mConnC with
            state := State.ERROR
            current_error := Error.ERROR_IN_USE
            lastErrorString := errorMessage .ERROR_IN_USE } ∧
        (mConnC.send "GET" "http://host/x" none none true).1 = Error.ERROR_IN_USE)) :=
  ⟨by decide, claim_C2_send_in_use mConnC "GET" "http://host/x" none none true (by decide)⟩

/-! ### Claim C8 -/

/-- Claim C8: a disconnect in `RECEIVING_BODY` with neither chunked
encoding nor a known content length completes the request (body and
received count kept, recorded error untouched); a disconnect in any other
non-terminal state (or in `RECEIVING_BODY` with chunked encoding or a
known length) records `ERROR_CONNECTION_CLOSED` and moves to `ERROR`. -/
theorem claim_C8_disconnect (m : Machine) :
    (m.state = State.RECEIVING_BODY → m.chunkedResponse = false → m.haveContentLength = false →
      (m.handleDisconnect.1.state = State.COMPLETE ∧
        m.handleDisconnect.1.responseBody = m.responseBody ∧
        m.handleDisconnect.1.dataReceived = m.dataReceived ∧
        m.handleDisconnect.1.current_error = m.current_error)) ∧
    ((m.state = State.CONNECTING ∨ m.state = State.SENDING_REQUEST ∨
        m.state = State.SENDING_BODY ∨ m.state = State.RECEIVING_STATUS_LINE ∨
        m.state = State.RECEIVING_HEADERS ∨
        (m.state = State.RECEIVING_BODY ∧
          (m.chunkedResponse = true ∨ m.haveContentLength = true))) →
      (m.handleDisconnect.1.current_error = Error.ERROR_CONNECTION_CLOSED ∧
        m.handleDisconnect.1.state = State.ERROR)) := by
  constructor
  · intro h1 h2 h3
    have hd : m.handleDisconnect.1 =
        ({ m.requestCompleted with clientAlive := false }).post_notifications.1 := by
      unfold Machine.handleDisconnect
      conv_lhs => rw [h1]
      simp [h2, h3]
    rw [hd, post_state, post_responseBody, post_dataReceived, post_current_error]
    exact ⟨rfl, rfl, rfl, rfl⟩
  · intro hcases
    have hne : m.state ≠ State.ERROR := by
      rcases hcases with h | h | h | h | h | ⟨h, _⟩ <;> rw [h] <;> simp
    have hd : m.handleDisconnect.1 =
        ({ m.handleErrorE Error.ERROR_CONNECTION_CLOSED none with
            clientAlive := false }).post_notifications.1 := by
      unfold Machine.handleDisconnect
      rcases hcases with h | h | h | h | h | ⟨h, hor⟩
      · conv_lhs => rw [h]
      · conv_lhs => rw [h]
      · conv_lhs => rw [h]
      · conv_lhs => rw [h]
      · conv_lhs => rw [h]
      · conv_lhs => rw [h]
        rcases hor with h2 | h2 <;> simp [h2]
    have he : (m.handleErrorE Error.ERROR_CONNECTION_CLOSED none).current_error =
        Error.ERROR_CONNECTION_CLOSED ∧
        (m.handleErrorE Error.ERROR_CONNECTION_CLOSED none).state = State.ERROR := by
      unfold Machine.handleErrorE
      rw [if_pos hne]
      exact ⟨rfl, rfl⟩
    rw [hd, post_current_error, post_state]
    exact ⟨he.1, he.2⟩

/-- Witness for C8: both directions at concrete machines — a disconnect on
a close-delimited body in `RECEIVING_BODY` completes with the 4 body bytes
kept, and the same machine with `haveContentLength` set errors instead. -/
theorem claim_C8_witness :
    (mBodyC8.state = State.RECEIVING_BODY ∧ mBodyC8.chunkedResponse = false ∧
      mBodyC8.haveContentLength = false) ∧
    (mBodyC8.handleDisconnect.1.state = State.COMPLETE ∧
      mBodyC8.handleDisconnect.1.responseBody = mBodyC8.responseBody ∧
      mBodyC8.handleDisconnect.1.dataReceived = mBodyC8.dataReceived ∧
      mBodyC8.handleDisconnect.1.current_error = mBodyC8.current_error) ∧
    (({ mBodyC8 with haveContentLength := true }).handleDisconnect.1.current_error =
        Error.ERROR_CONNECTION_CLOSED ∧
      ({ mBodyC8 with haveContentLength := true }).handleDisconnect.1.state = State.ERROR) :=
  ⟨⟨rfl, rfl, rfl⟩,
    (claim_C8_disconnect mBodyC8).1 rfl rfl rfl,
    (claim_C8_disconnect { mBodyC8 with haveContentLength := true }).2
      (Or.inr (Or.inr (Or.inr (Or.inr (Or.inr ⟨rfl, Or.inr rfl⟩)))))⟩

/-! ### Claim C4 -/

theorem chunk_inner_cr_stuck (m : Machine) (d : List Nat) (i : Nat)
    (h1 : i < d.length) (h2 : d.getD i garbageByte = byteCR) :
    ∀ fuel, runChunked fuel (m, ChunkPhase.inner d i) = none := by
  intro fuel
  induction fuel with
  | zero => rfl
  | succ n ih =>
    have hstep : chunkStep (m, ChunkPhase.inner d i) = (m, ChunkPhase.inner d i) := by
      dsimp only [chunkStep]
      rw [if_pos h1, h2, if_pos rfl]
    calc runChunked (n + 1) (m, ChunkPhase.inner d i)
        = runChunked n (chunkStep (m, ChunkPhase.inner d i)) := rfl
      _ = none := by rw [hstep]; exact ih

/-- Claim C4 fails on the code, in two independent ways.  First,
`handleData` in `RECEIVING_BODY` always routes incoming bytes to
`processBodyData`, never to `processChunkedBodyData`, so for a chunked
response the raw chunk framing is appended verbatim to the body and the
zero-size chunk never completes the request.  Second,
`processChunkedBodyData` itself does not terminate on the claim's first
packet: the `'\r'` branch of its chunk-size loop `continue`s without
advancing the index. -/
theorem claim_C4_chunked_decoding_broken :
    c4s.bodyBytes = strB "5\r\nHello\r\n6\r\n World!\r\n0\r\n\r\n" ∧
    c4s.state = State.RECEIVING_BODY ∧
    ¬ (c4s.state = State.COMPLETE) ∧
    (∀ fuel, mChunkC4.processChunkedBodyData (strB "5\r\nHello\r\n") fuel = none) := by
  refine ⟨by decide, by decide, by decide, fun fuel => ?_⟩
  cases fuel with
  | zero => rfl
  | succ n =>
    have hstep : chunkStep (mChunkC4, ChunkPhase.outer (strB "5\r\nHello\r\n")) =
        ({ mChunkC4 with chunkSize := 5 }, ChunkPhase.inner (strB "5\r\nHello\r\n") 1) := by
      decide
    show runChunked (n + 1) (mChunkC4, ChunkPhase.outer (strB "5\r\nHello\r\n")) = none
    calc runChunked (n + 1) (mChunkC4, ChunkPhase.outer (strB "5\r\nHello\r\n"))
        = runChunked n (chunkStep (mChunkC4, ChunkPhase.outer (strB "5\r\nHello\r\n"))) := rfl
      _ = none := by
          rw [hstep]
          exact chunk_inner_cr_stuck _ _ 1 (by decide) (by decide) n

/-! ### Claim C5 -/

/-- Counterexample for C5 as frozen: with `Content-Length: 11` and the two
body packets "Hello " and "World!" (12 bytes in total), the accumulated
body is *not* "Hello World!" — `processBodyData` clamps the second packet
to the declared length. -/
theorem claim_C5_counterexample :
    c5b.state = State.COMPLETE ∧ c5b.contentLength = 11 ∧
    ¬ (c5b.bodyBytes = strB "Hello World!") := by
  refine ⟨by decide, by decide, by decide⟩

/-- Claim C5 (amended): after the headers declare `Content-Length: 11` and
the body packets "Hello " and "World!" arrive, the machine is `COMPLETE`,
`contentLength()` returns 11, and the accumulated body is the 11-byte
prefix "Hello World" (the 12th byte is discarded by the clamp); in
general, with a known content length and `dataReceived` within it, a
`processBodyData` call appends exactly
`min (incoming) (declared − received)` bytes and never drives the
received total past the declared length. -/
theorem claim_C5_content_length (m : Machine) (d : List Nat)
    (h1 : m.haveContentLength = true)
    (h2 : m.dataReceived ≤ m.responseContentLength) :
    (c5b.state = State.COMPLETE ∧ c5b.contentLength = 11 ∧
      c5b.bodyBytes = strB "Hello World") ∧
    ((m.processBodyData d).dataReceived =
        m.dataReceived + min d.length (m.responseContentLength - m.dataReceived) ∧
      (m.processBodyData d).dataReceived ≤ m.responseContentLength) := by
  have key : (m.processBodyData d).dataReceived =
      m.dataReceived +
        (if m.haveContentLength && decide (m.dataReceived + d.length > m.responseContentLength)
          then m.responseContentLength - m.dataReceived else d.length) := by
    unfold Machine.processBodyData Machine.requestCompleted
    dsimp only
    split <;> split <;> rfl
  rw [key]
  simp only [h1, Bool.true_and, decide_eq_true_eq]
  refine ⟨⟨by decide, by decide, by decide⟩, ?_, ?_⟩
  · rw [Nat.min_def]
    split_ifs <;> omega
  · split_ifs <;> omega

/-- Witness for C5: the amended claim at a machine with declared length 5
and 2 bytes already received, fed an 8-byte packet. -/
theorem claim_C5_witness :
    mClampC5.haveContentLength = true ∧
    mClampC5.dataReceived ≤ mClampC5.responseContentLength ∧
    ((c5b.state = State.COMPLETE ∧ c5b.contentLength = 11 ∧
        c5b.bodyBytes = strB "Hello World") ∧
      ((mClampC5.processBodyData (strB "abcdefgh")).dataReceived =
          mClampC5.dataReceived +
            min (strB "abcdefgh").length
              (mClampC5.responseContentLength - mClampC5.dataReceived) ∧
        (mClampC5.processBodyData (strB "abcdefgh")).dataReceived ≤
          mClampC5.responseContentLength)) :=
  ⟨rfl, by decide, claim_C5_content_length mClampC5 (strB "abcdefgh") rfl (by decide)⟩

/-! ### Claim C6 -/

/-- Claim C6 fails on the code.  On a buffer whose bytes contain no
newline ("abc"), `readline` does not return "no data": its scan walks
past the buffered bytes through the uninitialized remainder of the
fragment and then dereferences a null fragment pointer (the loop
condition `fragment || i < (end % F)` re-enters the body with
`fragment == nullptr`).  And for a line longer than `max_length`
(600 bytes of 'a' and a newline, `max_length` 512), the truncation path
consumes only `max_length` bytes, so the excess is *not* discarded — the
next `readline` call returns the remaining 88 characters as a line of
their own. -/
theorem claim_C6_readline_bug :
    bNoNL.readline HTTP_MAX_LINE_LENGTH = ReadlineResult.nullDeref ∧
    (bLong.readline HTTP_MAX_LINE_LENGTH).lineBytes = some (List.replicate 511 97) ∧
    ((bLong.readline HTTP_MAX_LINE_LENGTH).restBuf.map
        (fun b => (b.readline HTTP_MAX_LINE_LENGTH).lineBytes)) =
      some (some (List.replicate 88 97)) := by
  refine ⟨by decide, by decide, by decide⟩

/-! ### Claim C9 — write/read round trip

The proof goes through an explicit characterization of the fragment chain
reachable by writes from an empty buffer (`mkBuf`), one lemma per C++
loop. -/

theorem hF : 0 < HTTP_BUFFER_FRAGMENT_SIZE := by decide

theorem hF512 : HTTP_BUFFER_FRAGMENT_SIZE = 512 := rfl

theorem buildFragsAux_irrel : ∀ (k1 : Nat) (k2 : Nat) (l : List Nat),
    l.length ≤ k1 → l.length ≤ k2 → buildFragsAux k1 l = buildFragsAux k2 l := by
  intro k1
  induction k1 with
  | zero =>
    intro k2 l h1 _
    have : l = [] := List.eq_nil_of_length_eq_zero (by omega)
    subst this
    cases k2 <;> rfl
  | succ n ih =>
    intro k2 l h1 h2
    cases l with
    | nil => cases k2 <;> rfl
    | cons a t =>
      cases k2 with
      | zero => simp at h2
      | succ n2 =>
        show _ :: buildFragsAux n ((a :: t).drop HTTP_BUFFER_FRAGMENT_SIZE) =
          _ :: buildFragsAux n2 ((a :: t).drop HTTP_BUFFER_FRAGMENT_SIZE)
        have e1 : ((a :: t).drop HTTP_BUFFER_FRAGMENT_SIZE).length ≤ n := by
          rw [List.length_drop]
          simp only [List.length_cons] at h1 ⊢
          rw [hF512]
          omega
        have e2 : ((a :: t).drop HTTP_BUFFER_FRAGMENT_SIZE).length ≤ n2 := by
          rw [List.length_drop]
          simp only [List.length_cons] at h2 ⊢
          rw [hF512]
          omega
        rw [ih n2 _ e1 e2]

theorem buildFrags_nil : buildFrags [] = [] := rfl

theorem buildFrags_cons (l : List Nat) (h : l ≠ []) :
    buildFrags l =
      ⟨padTo (l.take HTTP_BUFFER_FRAGMENT_SIZE)⟩ ::
        buildFrags (l.drop HTTP_BUFFER_FRAGMENT_SIZE) := by
  obtain ⟨a, t, rfl⟩ := List.exists_cons_of_ne_nil h
  show buildFragsAux (t.length + 1) (a :: t) = _
  show _ :: buildFragsAux t.length ((a :: t).drop HTTP_BUFFER_FRAGMENT_SIZE) = _
  congr 1
  apply buildFragsAux_irrel
  · rw [List.length_drop]
    simp only [List.length_cons]
    rw [hF512]
    omega
  · exact le_refl _

theorem buildFrags_small (x : List Nat) (h0 : x ≠ [])
    (h1 : x.length ≤ HTTP_BUFFER_FRAGMENT_SIZE) : buildFrags x = [⟨padTo x⟩] := by
  rw [buildFrags_cons x h0, List.take_of_length_le h1, List.drop_eq_nil_of_le h1, buildFrags_nil]

theorem buildFrags_append_aligned : ∀ (n : Nat) (l x : List Nat), l.length ≤ n →
    l.length % HTTP_BUFFER_FRAGMENT_SIZE = 0 →
    buildFrags (l ++ x) = buildFrags l ++ buildFrags x := by
  intro n
  induction n with
  | zero =>
    intro l x h1 _
    have : l = [] := List.eq_nil_of_length_eq_zero (by omega)
    subst this
    simp [buildFrags_nil]
  | succ n ih =>
    intro l x h1 h2
    by_cases hl : l = []
    · subst hl; simp [buildFrags_nil]
    · have hlen : HTTP_BUFFER_FRAGMENT_SIZE ≤ l.length := by
        have hpos : 0 < l.length := List.length_pos.mpr hl
        rcases Nat.lt_or_ge l.length HTTP_BUFFER_FRAGMENT_SIZE with hlt | hge
        · rw [Nat.mod_eq_of_lt hlt] at h2; omega
        · exact hge
      have hx : l ++ x ≠ [] := by simp [hl]
      rw [buildFrags_cons (l ++ x) hx, buildFrags_cons l hl]
      rw [List.take_append_of_le_length hlen, List.drop_append_of_le_length hlen]
      rw [List.cons_append]
      congr 1
      have hdl : (l.drop HTTP_BUFFER_FRAGMENT_SIZE).length =
          l.length - HTTP_BUFFER_FRAGMENT_SIZE := List.length_drop ..
      apply ih
      · rw [hdl, hF512] at *
        omega
      · rw [hdl, hF512] at *
        omega

theorem listWriteAt_replicate (c : List Nat) :
    listWriteAt (List.replicate HTTP_BUFFER_FRAGMENT_SIZE garbageByte) 0 c = padTo c := by
  unfold listWriteAt padTo
  simp [List.drop_replicate]

theorem listWriteAt_padTo (p c : List Nat)
    (h : p.length + c.length ≤ HTTP_BUFFER_FRAGMENT_SIZE) :
    listWriteAt (padTo p) p.length c = padTo (p ++ c) := by
  unfold listWriteAt padTo
  rw [List.take_append_eq_append_take, List.drop_append_eq_append_drop]
  simp [Nat.sub_self, List.drop_eq_nil_of_le, Nat.add_sub_cancel_left,
    List.drop_replicate, List.length_append, Nat.sub_sub]

theorem updateLast_append (f : Fragment → Fragment) :
    ∀ (xs : List Fragment) (y : Fragment), updateLast f (xs ++ [y]) = xs ++ [f y] := by
  intro xs
  induction xs with
  | nil => intro y; rfl
  | cons a t ih =>
    intro y
    cases t with
    | nil => rfl
    | cons b t2 =>
      show a :: updateLast f ((b :: t2) ++ [y]) = a :: ((b :: t2) ++ [f y])
      rw [ih y]

theorem buildFrags_unaligned (l : List Nat)
    (hr : l.length % HTTP_BUFFER_FRAGMENT_SIZE ≠ 0) :
    buildFrags l =
      buildFrags (l.take (l.length - l.length % HTTP_BUFFER_FRAGMENT_SIZE)) ++
        [⟨padTo (l.drop (l.length - l.length % HTTP_BUFFER_FRAGMENT_SIZE))⟩] := by
  have hmle : l.length % HTTP_BUFFER_FRAGMENT_SIZE ≤ l.length := Nat.mod_le _ _
  have hlt : l.length % HTTP_BUFFER_FRAGMENT_SIZE < HTTP_BUFFER_FRAGMENT_SIZE :=
    Nat.mod_lt _ hF
  have hdlen : (l.drop (l.length - l.length % HTTP_BUFFER_FRAGMENT_SIZE)).length =
      l.length % HTTP_BUFFER_FRAGMENT_SIZE := by
    rw [List.length_drop]
    omega
  have htlen : (l.take (l.length - l.length % HTTP_BUFFER_FRAGMENT_SIZE)).length =
      l.length - l.length % HTTP_BUFFER_FRAGMENT_SIZE := by
    rw [List.length_take]
    omega
  conv_lhs => rw [← List.take_append_drop (l.length - l.length % HTTP_BUFFER_FRAGMENT_SIZE) l]
  rw [buildFrags_append_aligned l.length _ _ (by rw [htlen]; omega)
      (by rw [htlen, hF512] at *; omega)]
  congr 1
  apply buildFrags_small
  · intro hnil
    rw [hnil] at hdlen
    simp at hdlen
    omega
  · rw [hdlen]
    omega

theorem buildFrags_write_chunk (l c : List Nat) (h0 : c ≠ [])
    (h1 : c.length ≤
      HTTP_BUFFER_FRAGMENT_SIZE - l.length % HTTP_BUFFER_FRAGMENT_SIZE) :
    updateLast
        (fun fr =>
          ⟨listWriteAt fr.data (l.length % HTTP_BUFFER_FRAGMENT_SIZE) c⟩)
        (if (buildFrags l).isEmpty then [newFragment]
          else if l.length % HTTP_BUFFER_FRAGMENT_SIZE = 0 then
            buildFrags l ++ [newFragment]
          else buildFrags l) =
      buildFrags (l ++ c) := by
  have hclen : 0 < c.length := List.length_pos.mpr h0
  have hlt : l.length % HTTP_BUFFER_FRAGMENT_SIZE < HTTP_BUFFER_FRAGMENT_SIZE :=
    Nat.mod_lt _ hF
  by_cases hl : l = []
  · subst hl
    rw [buildFrags_nil]
    show [(⟨listWriteAt (List.replicate HTTP_BUFFER_FRAGMENT_SIZE garbageByte) 0 c⟩ : Fragment)] =
      buildFrags ([] ++ c)
    rw [listWriteAt_replicate, List.nil_append,
      buildFrags_small c h0 (by rw [hF512] at *; omega)]
  · have hne : (buildFrags l).isEmpty = false := by
      rw [buildFrags_cons l hl]
      rfl
    rw [hne]
    show updateLast _ (if l.length % HTTP_BUFFER_FRAGMENT_SIZE = 0 then _ else _) = _
    by_cases hmod : l.length % HTTP_BUFFER_FRAGMENT_SIZE = 0
    · rw [if_pos hmod, updateLast_append, hmod]
      have : (⟨listWriteAt newFragment.data 0 c⟩ : Fragment) = ⟨padTo c⟩ := by
        show (⟨listWriteAt (List.replicate HTTP_BUFFER_FRAGMENT_SIZE garbageByte) 0 c⟩ : Fragment) = _
        rw [listWriteAt_replicate]
      rw [this]
      rw [buildFrags_append_aligned l.length l c (le_refl _) hmod]
      rw [buildFrags_small c h0 (by rw [hF512] at *; omega)]
    · rw [if_neg hmod]
      have hmle : l.length % HTTP_BUFFER_FRAGMENT_SIZE ≤ l.length := Nat.mod_le _ _
      have hdlen : (l.drop (l.length - l.length % HTTP_BUFFER_FRAGMENT_SIZE)).length =
          l.length % HTTP_BUFFER_FRAGMENT_SIZE := by
        rw [List.length_drop]; omega
      have htlen : (l.take (l.length - l.length % HTTP_BUFFER_FRAGMENT_SIZE)).length =
          l.length - l.length % HTTP_BUFFER_FRAGMENT_SIZE := by
        rw [List.length_take]; omega
      rw [buildFrags_unaligned l hmod, updateLast_append]
      have hwr := listWriteAt_padTo
        (l.drop (l.length - l.length % HTTP_BUFFER_FRAGMENT_SIZE)) c
        (by rw [hdlen]; omega)
      rw [hdlen] at hwr
      rw [hwr]
      conv_rhs =>
        rw [← List.take_append_drop (l.length - l.length % HTTP_BUFFER_FRAGMENT_SIZE) l,
          List.append_assoc]
      rw [buildFrags_append_aligned l.length _ _ (by rw [htlen]; omega)
          (by rw [htlen, hF512] at *; omega)]
      congr 1
      rw [buildFrags_small _ (by simp [h0]) (by rw [List.length_append, hdlen]; omega)]

theorem writeAux_mkBuf : ∀ (fuel : Nat) (l d : List Nat), d.length ≤ fuel →
    Buffer.writeAux fuel (mkBuf l) d = mkBuf (l ++ d) := by
  intro fuel
  induction fuel with
  | zero =>
    intro l d h
    have hd : d = [] := List.eq_nil_of_length_eq_zero (by omega)
    subst hd
    show mkBuf l = mkBuf (l ++ [])
    rw [List.append_nil]
  | succ n ih =>
    intro l d h
    cases d with
    | nil =>
      show mkBuf l = mkBuf (l ++ [])
      rw [List.append_nil]
    | cons a t =>
      have hoff : l.length % HTTP_BUFFER_FRAGMENT_SIZE < HTTP_BUFFER_FRAGMENT_SIZE :=
        Nat.mod_lt _ hF
      have htc1 : 1 ≤ min (HTTP_BUFFER_FRAGMENT_SIZE - l.length % HTTP_BUFFER_FRAGMENT_SIZE)
          (a :: t).length := by
        rw [Nat.min_def]
        split_ifs
        · omega
        · simp
      have htcle : min (HTTP_BUFFER_FRAGMENT_SIZE - l.length % HTTP_BUFFER_FRAGMENT_SIZE)
          (a :: t).length ≤ (a :: t).length := Nat.min_le_right _ _
      have hchunklen : ((a :: t).take
          (min (HTTP_BUFFER_FRAGMENT_SIZE - l.length % HTTP_BUFFER_FRAGMENT_SIZE)
            (a :: t).length)).length =
          min (HTTP_BUFFER_FRAGMENT_SIZE - l.length % HTTP_BUFFER_FRAGMENT_SIZE)
            (a :: t).length := by
        rw [List.length_take]
        exact Nat.min_eq_left htcle
      have hstep : Buffer.writeAux (n + 1) (mkBuf l) (a :: t) =
          Buffer.writeAux n
            (mkBuf (l ++ (a :: t).take
              (min (HTTP_BUFFER_FRAGMENT_SIZE - l.length % HTTP_BUFFER_FRAGMENT_SIZE)
                (a :: t).length)))
            ((a :: t).drop
              (min (HTTP_BUFFER_FRAGMENT_SIZE - l.length % HTTP_BUFFER_FRAGMENT_SIZE)
                (a :: t).length)) := by
        show Buffer.writeAux n
            ⟨0, l.length +
                min (HTTP_BUFFER_FRAGMENT_SIZE - l.length % HTTP_BUFFER_FRAGMENT_SIZE)
                  (a :: t).length,
              updateLast
                (fun fr =>
                  ⟨listWriteAt fr.data (l.length % HTTP_BUFFER_FRAGMENT_SIZE)
                    ((a :: t).take
                      (min (HTTP_BUFFER_FRAGMENT_SIZE - l.length % HTTP_BUFFER_FRAGMENT_SIZE)
                        (a :: t).length))⟩)
                (if (buildFrags l).isEmpty then [newFragment]
                  else if l.length % HTTP_BUFFER_FRAGMENT_SIZE = 0 then
                    buildFrags l ++ [newFragment]
                  else buildFrags l)⟩
            ((a :: t).drop
              (min (HTTP_BUFFER_FRAGMENT_SIZE - l.length % HTTP_BUFFER_FRAGMENT_SIZE)
                (a :: t).length)) = _
        congr 1
        show _ = (⟨0, (l ++ _).length, buildFrags (l ++ _)⟩ : Buffer)
        have hchunkne : (a :: t).take
            (min (HTTP_BUFFER_FRAGMENT_SIZE - l.length % HTTP_BUFFER_FRAGMENT_SIZE)
              (a :: t).length) ≠ [] := by
          intro hnil
          rw [hnil] at hchunklen
          simp at hchunklen
          omega
        congr 1
        · rw [List.length_append, hchunklen]
        · rw [buildFrags_write_chunk l _ hchunkne
            (by rw [hchunklen]; exact Nat.min_le_left _ _)]
      rw [hstep]
      rw [ih _ _ (by
        rw [List.length_drop]
        simp only [List.length_cons] at h ⊢
        omega)]
      rw [List.append_assoc, List.take_append_drop]

theorem write_mkBuf (l d : List Nat) : (mkBuf l).write d = mkBuf (l ++ d) :=
  writeAux_mkBuf d.length l d (le_refl _)

theorem mkBuf_nil : mkBuf [] = Buffer.empty := rfl

theorem writeAll_mkBuf : ∀ (parts : List (List Nat)) (l : List Nat),
    parts.foldl Buffer.write (mkBuf l) = mkBuf (l ++ parts.flatten) := by
  intro parts
  induction parts with
  | nil =>
    intro l
    show mkBuf l = mkBuf (l ++ [])
    rw [List.append_nil]
  | cons p rest ih =>
    intro l
    show rest.foldl Buffer.write ((mkBuf l).write p) = _
    rw [write_mkBuf, ih (l ++ p), List.flatten_cons, List.append_assoc]

theorem readAux_spec : ∀ (fuel : Nat) (s e rem : Nat) (frags : List Fragment),
    rem ≤ fuel →
    (∀ fr ∈ frags, fr.data.length = HTTP_BUFFER_FRAGMENT_SIZE) →
    s % HTTP_BUFFER_FRAGMENT_SIZE + rem ≤ frags.length * HTTP_BUFFER_FRAGMENT_SIZE →
    Buffer.readAux fuel ⟨s, e, frags⟩ rem =
      ((((frags.map Fragment.data).flatten).drop (s % HTTP_BUFFER_FRAGMENT_SIZE)).take rem,
        ⟨s + rem, e,
          frags.drop
            ((s % HTTP_BUFFER_FRAGMENT_SIZE + rem) / HTTP_BUFFER_FRAGMENT_SIZE)⟩) := by
  intro fuel
  induction fuel with
  | zero =>
    intro s e rem frags h1 h2 h3
    have hr : rem = 0 := by omega
    subst hr
    have hdiv : (s % HTTP_BUFFER_FRAGMENT_SIZE + 0) / HTTP_BUFFER_FRAGMENT_SIZE = 0 :=
      Nat.div_eq_of_lt (by have := Nat.mod_lt s hF; omega)
    rw [hdiv]
    show ([], (⟨s, e, frags⟩ : Buffer)) = _
    rw [List.take_zero, List.drop_zero, Nat.add_zero]
  | succ n ih =>
    intro s e rem frags h1 h2 h3
    by_cases hrem0 : rem = 0
    · subst hrem0
      have hdiv : (s % HTTP_BUFFER_FRAGMENT_SIZE + 0) / HTTP_BUFFER_FRAGMENT_SIZE = 0 :=
        Nat.div_eq_of_lt (by have := Nat.mod_lt s hF; omega)
      rw [hdiv]
      show ([], (⟨s, e, frags⟩ : Buffer)) = _
      rw [List.take_zero, List.drop_zero, Nat.add_zero]
    · cases frags with
      | nil =>
        exfalso
        simp at h3
        omega
      | cons fr rest =>
        have hflen : fr.data.length = HTTP_BUFFER_FRAGMENT_SIZE := h2 fr (by simp)
        have hoff : s % HTTP_BUFFER_FRAGMENT_SIZE < HTTP_BUFFER_FRAGMENT_SIZE :=
          Nat.mod_lt s hF
        have hunf : Buffer.readAux (n + 1) (⟨s, e, fr :: rest⟩ : Buffer) rem =
            ((fr.data.drop (s % HTTP_BUFFER_FRAGMENT_SIZE)).take
                (min (HTTP_BUFFER_FRAGMENT_SIZE - s % HTTP_BUFFER_FRAGMENT_SIZE) rem) ++
              (Buffer.readAux n
                ⟨s + min (HTTP_BUFFER_FRAGMENT_SIZE - s % HTTP_BUFFER_FRAGMENT_SIZE) rem, e,
                  if (s + min (HTTP_BUFFER_FRAGMENT_SIZE - s % HTTP_BUFFER_FRAGMENT_SIZE) rem) %
                      HTTP_BUFFER_FRAGMENT_SIZE = 0 then rest
                  else fr :: rest⟩
                (rem - min (HTTP_BUFFER_FRAGMENT_SIZE - s % HTTP_BUFFER_FRAGMENT_SIZE) rem)).1,
              (Buffer.readAux n
                ⟨s + min (HTTP_BUFFER_FRAGMENT_SIZE - s % HTTP_BUFFER_FRAGMENT_SIZE) rem, e,
                  if (s + min (HTTP_BUFFER_FRAGMENT_SIZE - s % HTTP_BUFFER_FRAGMENT_SIZE) rem) %
                      HTTP_BUFFER_FRAGMENT_SIZE = 0 then rest
                  else fr :: rest⟩
                (rem - min (HTTP_BUFFER_FRAGMENT_SIZE - s % HTTP_BUFFER_FRAGMENT_SIZE) rem)).2) := by
          conv_lhs => rw [Buffer.readAux]
          rw [if_neg hrem0]
          rfl
        rw [hunf]
        rw [List.map_cons, List.flatten_cons,
          List.drop_append_of_le_length (by omega),
          List.take_append_eq_append_take]
        have hdroplen : (fr.data.drop (s % HTTP_BUFFER_FRAGMENT_SIZE)).length =
            HTTP_BUFFER_FRAGMENT_SIZE - s % HTTP_BUFFER_FRAGMENT_SIZE := by
          rw [List.length_drop, hflen]
        rw [hdroplen]
        by_cases hcase :
            HTTP_BUFFER_FRAGMENT_SIZE - s % HTTP_BUFFER_FRAGMENT_SIZE ≤ rem
        · -- the read reaches the end of the first fragment, which is freed
          have hmin : min (HTTP_BUFFER_FRAGMENT_SIZE - s % HTTP_BUFFER_FRAGMENT_SIZE) rem =
              HTTP_BUFFER_FRAGMENT_SIZE - s % HTTP_BUFFER_FRAGMENT_SIZE :=
            Nat.min_eq_left hcase
          rw [hmin]
          have hbound : (s + (HTTP_BUFFER_FRAGMENT_SIZE - s % HTTP_BUFFER_FRAGMENT_SIZE)) %
              HTTP_BUFFER_FRAGMENT_SIZE = 0 := by
            rw [hF512] at *
            omega
          rw [if_pos hbound]
          have hrec := ih (s + (HTTP_BUFFER_FRAGMENT_SIZE - s % HTTP_BUFFER_FRAGMENT_SIZE)) e
            (rem - (HTTP_BUFFER_FRAGMENT_SIZE - s % HTTP_BUFFER_FRAGMENT_SIZE)) rest
            (by omega)
            (fun fr2 hm => h2 fr2 (by simp [hm]))
            (by
              rw [hbound]
              simp only [List.length_cons] at h3
              rw [hF512] at *
              omega)
          rw [hrec, hbound, List.drop_zero]
          rw [Prod.mk.injEq]
          have hA1 : (fr.data.drop (s % HTTP_BUFFER_FRAGMENT_SIZE)).take
              (HTTP_BUFFER_FRAGMENT_SIZE - s % HTTP_BUFFER_FRAGMENT_SIZE) =
              fr.data.drop (s % HTTP_BUFFER_FRAGMENT_SIZE) := by
            conv_lhs => rw [← hdroplen]
            rw [List.take_length]
          have hA2 : (fr.data.drop (s % HTTP_BUFFER_FRAGMENT_SIZE)).take rem =
              fr.data.drop (s % HTTP_BUFFER_FRAGMENT_SIZE) :=
            List.take_of_length_le (by rw [hdroplen]; omega)
          refine ⟨by rw [hA1, hA2], ?_⟩
          have hstart : s + (HTTP_BUFFER_FRAGMENT_SIZE - s % HTTP_BUFFER_FRAGMENT_SIZE) +
              (rem - (HTTP_BUFFER_FRAGMENT_SIZE - s % HTTP_BUFFER_FRAGMENT_SIZE)) = s + rem := by
            rw [hF512] at *
            omega
          have hdiv2 : (s % HTTP_BUFFER_FRAGMENT_SIZE + rem) / HTTP_BUFFER_FRAGMENT_SIZE =
              ((0 + (rem - (HTTP_BUFFER_FRAGMENT_SIZE - s % HTTP_BUFFER_FRAGMENT_SIZE))) /
                HTTP_BUFFER_FRAGMENT_SIZE) + 1 := by
            rw [hF512] at *
            omega
          rw [hstart, hdiv2, List.drop_succ_cons]
        · -- the read stays inside the first fragment
          have hmin : min (HTTP_BUFFER_FRAGMENT_SIZE - s % HTTP_BUFFER_FRAGMENT_SIZE) rem =
              rem := Nat.min_eq_right (by omega)
          rw [hmin]
          have hnb : (s + rem) % HTTP_BUFFER_FRAGMENT_SIZE ≠ 0 := by
            rw [hF512] at *
            omega
          rw [if_neg hnb, Nat.sub_self]
          have hrec := ih (s + rem) e 0 (fr :: rest)
            (by omega)
            h2
            (by
              have := Nat.mod_lt (s + rem) hF
              simp only [List.length_cons]
              rw [hF512] at *
              omega)
          rw [hrec]
          have hdiv3 : ((s + rem) % HTTP_BUFFER_FRAGMENT_SIZE + 0) / HTTP_BUFFER_FRAGMENT_SIZE = 0 :=
            Nat.div_eq_of_lt (by have := Nat.mod_lt (s + rem) hF; omega)
          have hdiv4 : (s % HTTP_BUFFER_FRAGMENT_SIZE + rem) / HTTP_BUFFER_FRAGMENT_SIZE = 0 :=
            Nat.div_eq_of_lt (by rw [hF512] at *; omega)
          rw [hdiv3, hdiv4]
          have hz : rem - (HTTP_BUFFER_FRAGMENT_SIZE - s % HTTP_BUFFER_FRAGMENT_SIZE) = 0 := by
            omega
          rw [hz]
          simp

theorem buildFrags_data_length : ∀ (n : Nat) (l : List Nat), l.length ≤ n →
    ∀ fr ∈ buildFrags l, fr.data.length = HTTP_BUFFER_FRAGMENT_SIZE := by
  intro n
  induction n with
  | zero =>
    intro l h fr hm
    have : l = [] := List.eq_nil_of_length_eq_zero (by omega)
    subst this
    rw [buildFrags_nil] at hm
    simp at hm
  | succ n ih =>
    intro l h fr hm
    by_cases hl : l = []
    · subst hl
      rw [buildFrags_nil] at hm
      simp at hm
    · rw [buildFrags_cons l hl] at hm
      rcases List.mem_cons.mp hm with h1 | h1
      · subst h1
        show (padTo (l.take HTTP_BUFFER_FRAGMENT_SIZE)).length = HTTP_BUFFER_FRAGMENT_SIZE
        unfold padTo
        rw [List.length_append, List.length_replicate, List.length_take]
        have := Nat.min_le_left HTTP_BUFFER_FRAGMENT_SIZE l.length
        omega
      · exact ih (l.drop HTTP_BUFFER_FRAGMENT_SIZE)
          (by rw [List.length_drop]; rw [hF512] at *; omega) fr h1

theorem buildFrags_flatten_pad : ∀ (n : Nat) (l : List Nat), l.length ≤ n →
    ∃ pad : List Nat, ((buildFrags l).map Fragment.data).flatten = l ++ pad := by
  intro n
  induction n with
  | zero =>
    intro l h
    have : l = [] := List.eq_nil_of_length_eq_zero (by omega)
    subst this
    exact ⟨[], by rw [buildFrags_nil]; rfl⟩
  | succ n ih =>
    intro l h
    by_cases hl : l = []
    · subst hl
      exact ⟨[], by rw [buildFrags_nil]; rfl⟩
    · rw [buildFrags_cons l hl]
      obtain ⟨pad, hpad⟩ := ih (l.drop HTTP_BUFFER_FRAGMENT_SIZE)
        (by rw [List.length_drop]; rw [hF512] at *; omega)
      rw [List.map_cons, List.flatten_cons, hpad]
      by_cases hge : HTTP_BUFFER_FRAGMENT_SIZE ≤ l.length
      · have hfull : padTo (l.take HTTP_BUFFER_FRAGMENT_SIZE) = l.take HTTP_BUFFER_FRAGMENT_SIZE := by
          unfold padTo
          rw [List.length_take, Nat.min_eq_left hge, Nat.sub_self, List.replicate_zero,
            List.append_nil]
        rw [hfull]
        exact ⟨pad, by rw [← List.append_assoc, List.take_append_drop]⟩
      · push_neg at hge
        have ht : l.take HTTP_BUFFER_FRAGMENT_SIZE = l := List.take_of_length_le (by omega)
        have hd : l.drop HTTP_BUFFER_FRAGMENT_SIZE = [] := List.drop_eq_nil_of_le (by omega)
        rw [ht, hd]
        refine ⟨List.replicate (HTTP_BUFFER_FRAGMENT_SIZE - l.length) garbageByte ++ pad, ?_⟩
        unfold padTo
        rw [List.nil_append, List.append_assoc]

theorem flatten_length_of_uniform : ∀ (frags : List Fragment),
    (∀ fr ∈ frags, fr.data.length = HTTP_BUFFER_FRAGMENT_SIZE) →
    ((frags.map Fragment.data).flatten).length =
      frags.length * HTTP_BUFFER_FRAGMENT_SIZE := by
  intro frags
  induction frags with
  | nil => intro _; rfl
  | cons fr rest ih =>
    intro h
    rw [List.map_cons, List.flatten_cons, List.length_append,
      ih (fun f hm => h f (by simp [hm])), h fr (by simp), List.length_cons]
    rw [Nat.succ_mul]
    omega

theorem read_mkBuf (l : List Nat) : (mkBuf l).read l.length = (l, Buffer.empty) := by
  obtain ⟨pad, hpad⟩ := buildFrags_flatten_pad l.length l (le_refl _)
  have hlen := buildFrags_data_length l.length l (le_refl _)
  have hflat := flatten_length_of_uniform (buildFrags l) hlen
  have hcap : 0 % HTTP_BUFFER_FRAGMENT_SIZE + l.length ≤
      (buildFrags l).length * HTTP_BUFFER_FRAGMENT_SIZE := by
    rw [Nat.zero_mod, ← hflat, hpad, List.length_append]
    omega
  have hspec := readAux_spec l.length 0 l.length l.length (buildFrags l)
    (le_refl _) hlen hcap
  have hmin : min l.length (mkBuf l).available = l.length := by
    show min l.length l.length = l.length
    exact Nat.min_self _
  unfold Buffer.read
  rw [hmin]
  unfold mkBuf
  dsimp only
  rw [hspec]
  dsimp only
  rw [if_pos (Nat.zero_add _)]
  rw [Prod.mk.injEq]
  refine ⟨?_, rfl⟩
  rw [Nat.zero_mod, List.drop_zero, hpad]
  exact List.take_left _ _

/-- Claim C9: for every byte sequence and every split of it into
successive `write` calls, writing it into an empty `Buffer` and then
reading its total length returns exactly the bytes written, in order, and
leaves `available()` equal to 0. -/
theorem claim_C9_roundtrip (parts : List (List Nat)) :
    ((parts.foldl Buffer.write Buffer.empty).read parts.flatten.length).1 = parts.flatten ∧
    ((parts.foldl Buffer.write Buffer.empty).read parts.flatten.length).2.available = 0 := by
  have hw : parts.foldl Buffer.write Buffer.empty = mkBuf parts.flatten := by
    have h := writeAll_mkBuf parts []
    rw [List.nil_append] at h
    exact h
  rw [hw, read_mkBuf]
  exact ⟨rfl, rfl⟩

end AsyncHTTPRequest
